import Mathlib

/-!
Shallow embedding of the turbo-clip client (DownloadPage, axios api layer,
downloadHelper) and proofs about the behaviour its specification describes.

Conventions:
* JavaScript objects become Lean structures; fields that may be `undefined`
  or `null` become `Option`.
* JavaScript `Set` values become `Finset String` (selection) or `List String`
  (the per-job delivered-ids set, where insertion is guarded by membership).
* Code that can throw becomes `Except Unit _`; an uncaught exception inside
  an event handler is modelled as the handler producing no callbacks and
  leaving the state unchanged (the browser keeps the channel open).
-/

namespace TurboClip

/-- One entry of `data.completed_downloads` in a batch progress event:
`download_id` may be absent, `title` is passed to `smartDownload`. -/
structure DLItem where
  download_id : Option String
  title : String
deriving DecidableEq, Repr

/-- One entry of `data.failed` in a batch progress event. -/
structure FailedItem where
  error : String
deriving DecidableEq, Repr

/-- The JSON payload of one batch progress event, as the fields the page
reads: `status`, `total`, `completed`, `completed_downloads`, `failed`. -/
structure BatchData where
  status : String
  total : Nat
  completed : Nat
  completed_downloads : Option (List DLItem)
  failed : Option (List FailedItem)
deriving DecidableEq, Repr

/-- `const failedCount = batchProgress?.failed?.length || 0` (part_003 line 305). -/
def failedCount (bp : BatchData) : Nat :=
  (bp.failed.map List.length).getD 0

/-- The success tally rendered in the batch done message (part_003 line 653):
`batchProgress.completed - failedCount`, as an integer (JS subtraction). -/
def displayedSucceeded (bp : BatchData) : Int :=
  (bp.completed : Int) - (failedCount bp : Int)

/-- One discoverable short: the fields of `res.data.videos[i]` the page uses. -/
structure Video where
  video_id : String
  url : String
  title : String
deriving DecidableEq, Repr

/-- A `/download/batch/info` response: `{videos, has_more}`. -/
structure BatchInfoResp where
  videos : List Video
  has_more : Bool
deriving DecidableEq, Repr

/-- The discovery/selection part of the DownloadPage state:
`videoInfo`, `shorts`, `selectedIds`, `hasMore`, `error`. -/
structure PageState where
  videoInfo : Option String
  shorts : List Video
  selectedIds : Finset String
  hasMore : Bool
  error : Option String
deriving DecidableEq

/-- `resetResults()` restricted to the discovery/selection fields. -/
def resetState : PageState :=
  { videoInfo := none, shorts := [], selectedIds := ∅, hasMore := false, error := none }

/-- `handleGetInfo` (part_003 lines 92-123), with the network responses passed
in as values: `isChan` is `isChannelUrl(url)`, `batch` is the
`/download/batch/info` response (used only on the channel branch), `info url2`
is the `/download/info` response for `url2`, and `url` is the page input. -/
def handleGetInfo (isChan : Bool) (batch : BatchInfoResp) (info : String → String)
    (url : String) : PageState :=
  if isChan then
    let videos := batch.videos
    if videos.length = 0 then
      { resetState with error := some "No shorts found on this channel" }
    else if videos.length = 1 ∧ batch.has_more = false then
      match videos with
      | v :: _ => { resetState with videoInfo := some (info v.url) }
      | [] => { resetState with error := some "No shorts found on this channel" }
    else
      { resetState with
          shorts := videos
          selectedIds := (videos.map (·.video_id)).toFinset
          hasMore := batch.has_more }
  else
    { resetState with videoInfo := some (info url) }

/-- `handleLoadMore` (part_003 lines 125-142) with the successful response
passed in: appends `resp.videos` to `shorts`, adds every new `video_id` to
the selected set, and replaces `hasMore`. -/
def handleLoadMore (st : PageState) (resp : BatchInfoResp) : PageState :=
  { st with
      shorts := st.shorts ++ resp.videos
      selectedIds := resp.videos.foldl (fun acc v => insert v.video_id acc) st.selectedIds
      hasMore := resp.has_more }

/-- `toggleSelect` (part_003 lines 261-268): removes the id if present,
inserts it otherwise — with no check that the id belongs to a loaded item. -/
def toggleSelect (st : PageState) (id : String) : PageState :=
  { st with
      selectedIds :=
        if id ∈ st.selectedIds then st.selectedIds.erase id
        else insert id st.selectedIds }

/-- `selectAll` (part_003 lines 270-272). -/
def selectAll (st : PageState) : PageState :=
  { st with selectedIds := (st.shorts.map (·.video_id)).toFinset }

/-- `deselectAll` (part_003 lines 274-276). -/
def deselectAll (st : PageState) : PageState :=
  { st with selectedIds := ∅ }

/-- `const selectedCount = selectedIds.size` (part_003 line 278). -/
def selectedCount (st : PageState) : Nat :=
  st.selectedIds.card

/-- The set of ids of the currently loaded items. -/
def shortsIds (st : PageState) : Finset String :=
  (st.shorts.map (·.video_id)).toFinset

/-! ### The batch progress push channel (`connectToBatchProgress`, part_003 lines 224-259)

A raw inbound message either parses as JSON into a `BatchData` or does not
(`RawMsg.invalid`).  The handler installed by `connectToBatchProgress` is a
plain function with no try/catch around `JSON.parse`, so an invalid message
makes the handler throw: the exception is uncaught, no callback runs, the
`EventSource` stays open and keeps delivering later messages. -/

/-- One raw message on the push channel. -/
inductive RawMsg where
  | invalid
  | valid (data : BatchData)
deriving DecidableEq, Repr

/-- The state touched by the batch channel handlers: whether the
`EventSource` is open, the `deliveredIdsRef` seen-set, and the React state
the handlers set. -/
structure ChanState where
  isOpen : Bool
  seen : List String
  batchProgress : Option BatchData
  batchDownloading : Bool
  error : Option String
deriving DecidableEq, Repr

/-- The observable callbacks the handlers perform: a `setBatchProgress`
update, one `smartDownload` delivery per fresh id, and the transport-error
path (the body of `es.onerror`). -/
inductive Callback where
  | setProgress (data : BatchData)
  | deliver (id : String) (title : String)
  | transportError
deriving DecidableEq, Repr

/-- The delivery loop of `es.onmessage` (part_003 lines 236-244): walk
`completed_downloads`, and for each entry whose `download_id` is truthy and
not yet in the seen-set, add it to the seen-set and deliver it. -/
def deliverLoop : List String → List DLItem → List String × List (String × String)
  | seen, [] => (seen, [])
  | seen, dl :: rest =>
    match dl.download_id with
    | some id =>
      if id ≠ "" ∧ id ∉ seen then
        ((deliverLoop (id :: seen) rest).1,
         (id, dl.title) :: (deliverLoop (id :: seen) rest).2)
      else deliverLoop seen rest
    | none => deliverLoop seen rest

/-- The state of the channel just after `connectToBatchProgress` ran
(part_003 lines 224-229): stream open, seen-set reset to empty. -/
def initChanState : ChanState :=
  { isOpen := true, seen := [], batchProgress := none,
    batchDownloading := true, error := none }

/-- `es.onmessage` (part_003 lines 231-251).  A closed channel delivers
nothing.  An invalid message makes `JSON.parse` throw out of the handler:
no callback, no state change, channel still open.  A valid message updates
`batchProgress`, runs the delivery loop, and on a terminal status closes
the channel and clears `batchDownloading`. -/
def onBatchMessage (st : ChanState) (msg : RawMsg) : ChanState × List Callback :=
  if st.isOpen = false then (st, [])
  else
    match msg with
    | .invalid => (st, [])
    | .valid data =>
      let r := deliverLoop st.seen (data.completed_downloads.getD [])
      let closing := data.status = "done" ∨ data.status = "error"
      ({ st with
          batchProgress := some data
          seen := r.1
          isOpen := if closing then false else st.isOpen
          batchDownloading := if closing then false else st.batchDownloading },
       Callback.setProgress data :: r.2.map (fun p => Callback.deliver p.1 p.2))

/-- `es.onerror` (part_003 lines 253-258): close the channel, clear
`batchDownloading`, set the error message.  A closed channel fires nothing. -/
def onBatchError (st : ChanState) : ChanState × List Callback :=
  if st.isOpen = false then (st, [])
  else
    ({ st with
        isOpen := false
        batchDownloading := false
        error := some "Lost connection to batch progress" },
     [Callback.transportError])

/-- Run a whole sequence of raw messages through `es.onmessage`,
accumulating the callbacks in order. -/
def processMsgs (st : ChanState) : List RawMsg → ChanState × List Callback
  | [] => (st, [])
  | m :: rest =>
    let r := onBatchMessage st m
    let r2 := processMsgs r.1 rest
    (r2.1, r.2 ++ r2.2)

/-- The ids delivered by a callback trace. -/
def deliveredIdsOf (cbs : List Callback) : List String :=
  cbs.filterMap (fun cb => match cb with
    | .deliver id _ => some id
    | _ => none)

/-! ### `handleStop` (part_003 lines 207-221) -/

/-- The controller state `handleStop` touches. -/
structure AppState where
  activeDownloadId : Option String
  esOpen : Bool
  deliveredIds : List String
  downloading : Bool
  batchDownloading : Bool
  progress : Option String
  batchProgress : Option BatchData
deriving DecidableEq

/-- A server call issued by the page. -/
inductive ServerCall where
  | cancel (id : String)
deriving DecidableEq, Repr

/-- `handleStop`: POST the cancel endpoint for the active id (result
ignored — the `cancelResult` argument is unused, any failure is swallowed
by the empty catch), close the event source, drop the active id, clear the
busy flags and the progress objects.  `deliveredIdsRef` is not touched. -/
def handleStop (st : AppState) (_cancelResult : Except Unit Unit) :
    AppState × List ServerCall :=
  let calls := match st.activeDownloadId with
    | some id => [ServerCall.cancel id]
    | none => []
  ({ st with
      activeDownloadId := none
      esOpen := false
      downloading := false
      batchDownloading := false
      progress := none
      batchProgress := none },
   calls)

/-- The effect of `connectToBatchProgress` (part_003 lines 224-229) on the
controller state: close any previous stream, reset the seen-set, open the
new stream. -/
def connectBatch (st : AppState) : AppState :=
  { st with esOpen := true, deliveredIds := [] }

/-! ### The axios response interceptor (part_006 lines 17-36) -/

/-- The outcome of one HTTP attempt: a response arrived (success or an
HTTP error status) or no response at all (network error). -/
inductive Outcome where
  | success
  | networkError
  | httpError (status : Nat)
deriving DecidableEq, Repr

/-- The browser storage and location the interceptor touches. -/
structure Storage where
  token : Option String
  user : Option String
  location : String
deriving DecidableEq, Repr

/-- The final result of a request as seen by the caller. -/
inductive ReqResult where
  | ok
  | netFail
  | httpFail (status : Nat)
  | exhausted
deriving DecidableEq, Repr

/-- The 401 branch: remove the token and user entries from local storage
and set the window location to the login page. -/
def clearAuthRedirect (_st : Storage) : Storage :=
  { token := none, user := none, location := "/login" }

/-- Run a request through the response interceptor.  `outs` supplies the
outcome of each successive attempt, `retried` is `config._retried`, and the
returned `Nat` counts the attempts consumed.  A network error on a
not-yet-retried config re-issues the request with `_retried = true`; an
HTTP error is never retried, and a 401 clears the auth storage and
redirects before rejecting. -/
def runRequest : List Outcome → Bool → Storage → ReqResult × Storage × Nat
  | [], _, st => (.exhausted, st, 0)
  | o :: rest, retried, st =>
    match o with
    | .success => (.ok, st, 1)
    | .networkError =>
      if retried then (.netFail, st, 1)
      else
        let r := runRequest rest true st
        (r.1, r.2.1, r.2.2 + 1)
    | .httpError s =>
      if s = 401 then (.httpFail s, clearAuthRedirect st, 1)
      else (.httpFail s, st, 1)

/-! ### `smartDownload` and `verifyHandlePermission` (part_006 lines 106-137) -/

/-- What a permission query/request can come back with; `err` models a
thrown exception. -/
inductive PermAnswer where
  | granted
  | denied
  | prompt
  | err
deriving DecidableEq, Repr

/-- `verifyHandlePermission`: true iff `queryPermission` answers granted,
or otherwise `requestPermission` answers granted; any exception is caught
and yields false. -/
def verifyHandlePermission (query request : PermAnswer) : Bool :=
  match query with
  | .granted => true
  | .err => false
  | _ =>
    match request with
    | .granted => true
    | _ => false

/-- How an artifact was placed on the device. -/
inductive DeliveryMethod where
  | fsApi
  | browser
deriving DecidableEq, Repr

/-- The environment `smartDownload` runs in: whether
`showDirectoryPicker` exists, what `loadDirectoryHandle()` resolves to
(`Except.error` models a rejected promise), the two permission answers the
stored handle would give, and whether `streamToDirectory` succeeds or
throws. -/
structure DeliveryEnv where
  fsSupported : Bool
  loadResult : Except Unit (Option Unit)
  queryPerm : PermAnswer
  requestPerm : PermAnswer
  streamResult : Except Unit Unit

/-- `smartDownload` (part_006 lines 119-137): try the File System Access
path when supported, a handle is stored and permission verifies; any
failure inside the try block falls through to `triggerBrowserDownload`. -/
def smartDownload (env : DeliveryEnv) : Except Unit DeliveryMethod :=
  if env.fsSupported then
    match env.loadResult with
    | .error e => .error e
    | .ok none => .ok .browser
    | .ok (some _) =>
      if verifyHandlePermission env.queryPerm env.requestPerm then
        match env.streamResult with
        | .ok _ => .ok .fsApi
        | .error _ => .ok .browser
      else .ok .browser
  else .ok .browser

/-! ### String helpers for the JavaScript string operations used by
`parseFilenameFromResponse` and `isChannelUrl` -/

/-- The whitespace characters `String.prototype.trim` strips (the ASCII
ones, which are the ones that occur in HTTP headers). -/
def jsWhitespace (c : Char) : Bool :=
  c = ' ' ∨ c = '\t' ∨ c = '\n' ∨ c = '\r'

/-- `String.prototype.trim`. -/
def jsTrim (s : String) : String :=
  String.mk (((s.data.dropWhile jsWhitespace).reverse.dropWhile jsWhitespace).reverse)

/-- Case-insensitive "pattern matches here" test, the way the `i` regex
flag folds letters. -/
def matchesAtCI : List Char → List Char → Bool
  | [], _ => true
  | _ :: _, [] => false
  | p :: ps, c :: cs => p.toLower = c.toLower ∧ matchesAtCI ps cs

/-- Case-sensitive "pattern matches here" test. -/
def matchesAtCS : List Char → List Char → Bool
  | [], _ => true
  | _ :: _, [] => false
  | p :: ps, c :: cs => p = c ∧ matchesAtCS ps cs

/-- Case-sensitive substring containment (`String.prototype.includes`). -/
def containsSub (pat : List Char) : List Char → Bool
  | [] => matchesAtCS pat []
  | c :: cs => matchesAtCS pat (c :: cs) ∨ containsSub pat cs

/-- An ASCII apostrophe (the quote character of the `UTF-8` filename tag). -/
def quoteChar : Char := Char.ofNat 39

/-- The literal part of the regex `filename\*=UTF-8<q><q>(.+)` with `<q>`
the apostrophe. -/
def utf8Marker : List Char := "filename*=UTF-8".data ++ [quoteChar, quoteChar]

/-- The literal part of the regex `filename="?([^";\n]+)"?`. -/
def plainMarker : List Char := "filename=".data

/-- `.` of a JavaScript regex: any character except a line terminator. -/
def notLineTerm (c : Char) : Bool :=
  ¬ (c = '\n' ∨ c = '\r')

/-- A character allowed inside the group of `filename="?([^";\n]+)"?`. -/
def plainNameChar (c : Char) : Bool :=
  c ≠ '"' ∧ c ≠ ';' ∧ c ≠ '\n'

/-- First match of `/filename\*=UTF-8<q><q>(.+)/i` in a header value:
scan left to right; at the first position where the marker matches
case-insensitively and at least one non-line-terminator character follows,
the group is the maximal run of such characters. -/
def scanUtf8Filename : List Char → Option (List Char)
  | [] => none
  | c :: cs =>
    if matchesAtCI utf8Marker (c :: cs) then
      let g := ((c :: cs).drop utf8Marker.length).takeWhile notLineTerm
      if g = [] then scanUtf8Filename cs else some g
    else scanUtf8Filename cs

/-- First match of `/filename="?([^";\n]+)"?/i` in a header value: after
the marker an optional opening quote is consumed, and the group is the
maximal nonempty run of characters outside `"`, `;`, `\n`. -/
def scanPlainFilename : List Char → Option (List Char)
  | [] => none
  | c :: cs =>
    if matchesAtCI plainMarker (c :: cs) then
      let r := (c :: cs).drop plainMarker.length
      let r2 := match r with
        | q :: t => if q = '"' then t else r
        | [] => r
      let g := r2.takeWhile plainNameChar
      if g = [] then scanPlainFilename cs else some g
    else scanPlainFilename cs

/-- Value of a hex digit. -/
def hexVal (c : Char) : Option Nat :=
  if '0' ≤ c ∧ c ≤ '9' then some (c.toNat - '0'.toNat)
  else if 'a' ≤ c ∧ c ≤ 'f' then some (c.toNat - 'a'.toNat + 10)
  else if 'A' ≤ c ∧ c ≤ 'F' then some (c.toNat - 'A'.toNat + 10)
  else none

/-- UTF-8 encoding of one scalar value, as byte values. -/
def utf8EncodeChar (n : Nat) : List Nat :=
  if n < 0x80 then [n]
  else if n < 0x800 then [0xC0 + n / 64, 0x80 + n % 64]
  else if n < 0x10000 then [0xE0 + n / 4096, 0x80 + n / 64 % 64, 0x80 + n % 64]
  else [0xF0 + n / 262144, 0x80 + n / 4096 % 64, 0x80 + n / 64 % 64, 0x80 + n % 64]

/-- Percent-decoding pass of `decodeURIComponent`: a `%` must be followed
by two hex digits and contributes that byte; any other character
contributes its UTF-8 bytes.  `none` models a thrown `URIError`. -/
def percentDecodeBytes : List Char → Option (List Nat)
  | [] => some []
  | '%' :: h :: l :: rest =>
    match hexVal h, hexVal l with
    | some hv, some lv => (percentDecodeBytes rest).map ((hv * 16 + lv) :: ·)
    | _, _ => none
  | '%' :: _ :: [] => none
  | '%' :: [] => none
  | c :: rest => (percentDecodeBytes rest).map (utf8EncodeChar c.toNat ++ ·)

/-- Is `b` a UTF-8 continuation byte? -/
def isCont (b : Nat) : Bool := 0x80 ≤ b ∧ b ≤ 0xBF

/-- Strict UTF-8 decoding of a byte list (rejecting overlong forms,
surrogates and out-of-range values, as `decodeURIComponent` does).
`none` models a thrown `URIError`. -/
def utf8Decode : List Nat → Option (List Char)
  | [] => some []
  | b :: rest =>
    if b < 0x80 then (utf8Decode rest).map (Char.ofNat b :: ·)
    else if 0xC2 ≤ b ∧ b ≤ 0xDF then
      match rest with
      | b1 :: rest2 =>
        if isCont b1 then
          (utf8Decode rest2).map (Char.ofNat ((b - 0xC0) * 64 + (b1 - 0x80)) :: ·)
        else none
      | [] => none
    else if 0xE0 ≤ b ∧ b ≤ 0xEF then
      match rest with
      | b1 :: b2 :: rest2 =>
        let lo1 := if b = 0xE0 then 0xA0 else 0x80
        let hi1 := if b = 0xED then 0x9F else 0xBF
        if (lo1 ≤ b1 ∧ b1 ≤ hi1) ∧ isCont b2 then
          (utf8Decode rest2).map
            (Char.ofNat ((b - 0xE0) * 4096 + (b1 - 0x80) * 64 + (b2 - 0x80)) :: ·)
        else none
      | _ => none
    else if 0xF0 ≤ b ∧ b ≤ 0xF4 then
      match rest with
      | b1 :: b2 :: b3 :: rest2 =>
        let lo1 := if b = 0xF0 then 0x90 else 0x80
        let hi1 := if b = 0xF4 then 0x8F else 0xBF
        if (lo1 ≤ b1 ∧ b1 ≤ hi1) ∧ isCont b2 ∧ isCont b3 then
          (utf8Decode rest2).map
            (Char.ofNat ((b - 0xF0) * 262144 + (b1 - 0x80) * 4096 +
              (b2 - 0x80) * 64 + (b3 - 0x80)) :: ·)
        else none
      | _ => none
    else none

/-- `decodeURIComponent`; `none` models a thrown `URIError`. -/
def jsDecodeURIComponent (s : String) : Option String :=
  ((percentDecodeBytes s.data).bind utf8Decode).map String.mk

/-! ### `parseFilenameFromResponse` (part_006 lines 164-208) -/

/-- The response metadata the filename derivation reads. -/
structure HttpResponse where
  contentDisposition : Option String
  contentType : Option String

/-- The Content-Type header of the response, defaulted to the empty
string when absent. -/
def ctOf (resp : HttpResponse) : String :=
  resp.contentType.getD ""

/-- The fixed content-type → extension table `extMap` with its `.mp4`
default. -/
def extFor (ct : String) : String :=
  if ct = "video/mp4" then ".mp4"
  else if ct = "video/webm" then ".webm"
  else if ct = "video/x-matroska" then ".mkv"
  else if ct = "audio/mpeg" then ".mp3"
  else if ct = "audio/mp4" then ".m4a"
  else if ct = "application/zip" then ".zip"
  else if ct = "image/jpeg" then ".jpg"
  else if ct = "image/png" then ".png"
  else if ct = "image/webp" then ".webp"
  else ".mp4"

/-- The replace step of the sanitizer: drop every character of the class
`[<>:"/\\|?*]` from the suggested name. -/
def sanitizeName (s : String) : String :=
  String.mk (s.data.filter (fun c =>
    ¬ (c = '<' ∨ c = '>' ∨ c = ':' ∨ c = '"' ∨ c = '/' ∨ c = '\\' ∨
       c = '|' ∨ c = '?' ∨ c = '*')))

/-- `suggestedName.replace(...).trim()` — the `safe` value of the code. -/
def safeName (s : String) : String :=
  jsTrim (sanitizeName s)

/-- JavaScript `s.endsWith(suffix)`. -/
def jsEndsWith (s suffix : String) : Bool :=
  matchesAtCS suffix.data (s.data.drop (s.data.length - suffix.data.length))

/-- The early returns of the `Content-Disposition` block of
`parseFilenameFromResponse` (lines 165-172), if any fires: the UTF-8-tagged
match wins and is percent-decoded (a failed decode is the thrown
`URIError`), otherwise a plain `filename=` match is trimmed. -/
def dispositionFilename (resp : HttpResponse) : Option (Except Unit String) :=
  match resp.contentDisposition with
  | some d =>
    if d = "" then none
    else
      match scanUtf8Filename d.data with
      | some g => some ((jsDecodeURIComponent (String.mk g)).elim (.error ()) .ok)
      | none =>
        (scanPlainFilename d.data).map (fun g => .ok (jsTrim (String.mk g)))
  | none => none

/-- The suggested-title and identifier fallbacks of
`parseFilenameFromResponse` (lines 174-207). -/
def afterDisposition (resp : HttpResponse) (suggestedName : Option String)
    (downloadId : String) : String :=
  let fallback := downloadId ++ extFor (ctOf resp)
  match suggestedName with
  | some s =>
    if s = "" then fallback
    else
      let safe := safeName s
      let ext := extFor (ctOf resp)
      if safe ≠ "" ∧ ¬ jsEndsWith safe ext then safe ++ ext
      else if safe ≠ "" then safe
      else fallback
  | none => fallback

/-- `parseFilenameFromResponse(response, suggestedName, downloadId)`. -/
def parseFilenameFromResponse (resp : HttpResponse) (suggestedName : Option String)
    (downloadId : String) : Except Unit String :=
  match dispositionFilename resp with
  | some r => r
  | none => .ok (afterDisposition resp suggestedName downloadId)

/-! ### `isChannelUrl` (part_003 lines 33-45) -/

/-- A character of the regex class `[a-zA-Z0-9_-]`. -/
def shortsIdChar (c : Char) : Bool :=
  ('a' ≤ c ∧ c ≤ 'z') ∨ ('A' ≤ c ∧ c ≤ 'Z') ∨ ('0' ≤ c ∧ c ≤ '9') ∨
  c = '_' ∨ c = '-'

/-- `/^\/shorts\/[a-zA-Z0-9_-]+/.test(pathname)`. -/
def shortsPathTest (pathname : String) : Bool :=
  let l := pathname.data
  matchesAtCS "/shorts/".data l &&
    match l.drop 8 with
    | c :: _ => shortsIdChar c
    | [] => false

/-- `isChannelUrl(url)` with the URL constructor's result passed in:
`parsed` is `some pathname` when `new URL(url)` succeeds and `none` when it
throws (the catch returns false).  A `/shorts/VIDEO_ID` path is not a
channel; a lowercased path containing `/@`, `/channel/` or `/c/` is. -/
def isChannelUrl (parsed : Option String) : Bool :=
  match parsed with
  | none => false
  | some pathname =>
    let path := String.mk (pathname.data.map Char.toLower)
    if shortsPathTest pathname then false
    else if containsSub "/@".data path.data ∨ containsSub "/channel/".data path.data ∨
        containsSub "/c/".data path.data then true
    else false

/-! ## Theorems -/

/-- C1 (counterexample): a done event reporting one completion and two
failures is displayed as a negative succeeded count — the page renders
`completed - failedCount` with no clamping. -/
theorem C1_counterexample :
    displayedSucceeded ⟨"done", 5, 1, none, some [⟨"e1"⟩, ⟨"e2"⟩]⟩ < 0 ∧
    (⟨"done", 5, 1, none, some [⟨"e1"⟩, ⟨"e2"⟩]⟩ : BatchData).status = "done" := by
  decide

/-- C1 (amended): the displayed batch success tally is exactly
`completedCount - failedItems.length`, with no clamping: it is
nonnegative precisely when the event reports at least as many completions
as failures, and the 3-then-5-completions scenario of the spec displays
`4` of 5. -/
theorem C1_amended_tally :
    (∀ bp : BatchData, 0 ≤ displayedSucceeded bp ↔ failedCount bp ≤ bp.completed) ∧
    displayedSucceeded ⟨"done", 5, 5, none, some [⟨"x"⟩]⟩ = 4 := by
  constructor
  · intro bp
    simp [displayedSucceeded, sub_nonneg, Nat.cast_le]
  · decide

/-- C2 (counterexample): on an open channel, a message that is not valid
JSON produces no callback at all (in particular the transport-error
handler is not invoked, rather than invoked exactly once), leaves the
channel open, and a later valid message still produces callbacks. -/
theorem C2_counterexample :
    onBatchMessage initChanState RawMsg.invalid = (initChanState, []) ∧
    (onBatchMessage initChanState RawMsg.invalid).1.isOpen = true ∧
    Callback.transportError ∉ (onBatchMessage initChanState RawMsg.invalid).2 ∧
    (onBatchMessage (onBatchMessage initChanState RawMsg.invalid).1
        (RawMsg.valid ⟨"downloading", 3, 1, some [], none⟩)).2 ≠ [] := by
  decide

/-- C2 (amended): a non-JSON message makes `JSON.parse` throw out of the
message handler: no callback is performed, the state is unchanged and the
channel stays open, so later messages are still processed; the
transport-error path (close plus error message, exactly one transport
error callback) runs only for a transport-level error signal. -/
theorem C2_amended_invalid_message (st : ChanState) (h : st.isOpen = true) :
    onBatchMessage st RawMsg.invalid = (st, []) ∧
    (onBatchError st).2 = [Callback.transportError] ∧
    (onBatchError st).1.isOpen = false ∧
    (onBatchError st).1.error = some "Lost connection to batch progress" := by
  refine ⟨?_, ?_, ?_, ?_⟩ <;> simp [onBatchMessage, onBatchError, h]

/-- C2 (witness for the amended theorem), at the freshly opened channel
state. -/
theorem C2_amended_witness :
    onBatchMessage initChanState RawMsg.invalid = (initChanState, []) ∧
    (onBatchError initChanState).2 = [Callback.transportError] ∧
    (onBatchError initChanState).1.isOpen = false ∧
    (onBatchError initChanState).1.error =
      some "Lost connection to batch progress" :=
  C2_amended_invalid_message initChanState rfl

/-- C3 (counterexample): stopping from a streaming state with a nonempty
per-job seen-set leaves the seen-set as it was — `handleStop` never clears
`deliveredIdsRef`, so cancellation does not perform the clear-seen-set
step. -/
theorem C3_counterexample :
    (handleStop ⟨some "job1", true, ["a1"], false, true, none, none⟩
        (Except.ok ())).1.deliveredIds = ["a1"] ∧
    (["a1"] : List String) ≠ [] := by
  decide

/-- C3 (amended): explicit cancellation calls the server cancel endpoint
for the active job best-effort (the state is the same whether that call
fails or succeeds), closes the stream, and discards the job handle — but
it leaves the per-job seen-set untouched; the seen-set is instead reset
when the next batch progress connection is opened. -/
theorem C3_amended_stop (st : AppState) (r : Except Unit Unit) :
    (handleStop st r).2 =
      (match st.activeDownloadId with
       | some id => [ServerCall.cancel id]
       | none => []) ∧
    (handleStop st r).1 = (handleStop st (Except.ok ())).1 ∧
    (handleStop st r).1.esOpen = false ∧
    (handleStop st r).1.activeDownloadId = none ∧
    (handleStop st r).1.deliveredIds = st.deliveredIds ∧
    (connectBatch st).deliveredIds = [] :=
  ⟨rfl, rfl, rfl, rfl, rfl, rfl⟩

/-- C9: a request failing with no HTTP response is retried exactly once
and never more (at most two attempts ever, and a first network error
always consumes exactly one more attempt); a request failing with an HTTP
response is never retried; a 401 clears the stored token and user and
redirects to the login page. -/
theorem C9_retry_once :
    (∀ (outs : List Outcome) (st : Storage), (runRequest outs false st).2.2 ≤ 2) ∧
    (∀ (o2 : Outcome) (rest : List Outcome) (st : Storage),
      (runRequest (Outcome.networkError :: o2 :: rest) false st).2.2 = 2) ∧
    (∀ (s : Nat) (rest : List Outcome) (st : Storage),
      (runRequest (Outcome.httpError s :: rest) false st).2.2 = 1 ∧
      (runRequest (Outcome.httpError s :: rest) false st).1 = ReqResult.httpFail s) ∧
    (∀ (rest : List Outcome) (st : Storage),
      runRequest (Outcome.httpError 401 :: rest) false st =
        (ReqResult.httpFail 401, ⟨none, none, "/login"⟩, 1)) ∧
    (∀ (s : Nat) (rest : List Outcome) (st : Storage), s ≠ 401 →
      (runRequest (Outcome.httpError s :: rest) false st).2.1 = st) := by
  have hone : ∀ (outs : List Outcome) (st : Storage),
      (runRequest outs true st).2.2 ≤ 1 := by
    intro outs st
    cases outs with
    | nil => simp [runRequest]
    | cons o rest =>
      cases o <;> simp [runRequest] <;> split <;> simp
  refine ⟨?_, ?_, ?_, ?_, ?_⟩
  · intro outs st
    cases outs with
    | nil => simp [runRequest]
    | cons o rest =>
      cases o with
      | success => simp [runRequest]
      | networkError =>
        have := hone rest st
        simp [runRequest]
        omega
      | httpError s => simp [runRequest] <;> split <;> simp
  · intro o2 rest st
    cases o2 <;> simp [runRequest] <;> split <;> simp
  · intro s rest st
    constructor <;> simp [runRequest] <;> split <;> simp
  · intro rest st
    simp [runRequest, clearAuthRedirect]
  · intro s rest st hs
    simp [runRequest, hs]

/-- C9 (witness): a 404 does not touch the stored token and user. -/
theorem C9_witness :
    (runRequest [Outcome.httpError 404] false
        ⟨some "tk", some "us", "/x"⟩).2.1 = ⟨some "tk", some "us", "/x"⟩ :=
  C9_retry_once.2.2.2.2 404 [] ⟨some "tk", some "us", "/x"⟩ (by decide)

/-- C7: `smartDownload` returns the browser fallback, without raising an
error, whenever the File System Access capability is unsupported, no
directory handle is stored, permission re-verification is denied, or the
direct streamed write throws; the direct-write method is returned exactly
when the streamed write path fully succeeds. -/
theorem C7_delivery_fallback (env : DeliveryEnv) :
    (env.fsSupported = false → smartDownload env = .ok .browser) ∧
    (env.loadResult = .ok none → smartDownload env = .ok .browser) ∧
    (env.loadResult = .ok (some ()) →
      verifyHandlePermission env.queryPerm env.requestPerm = false →
      smartDownload env = .ok .browser) ∧
    (∀ o, env.loadResult = .ok o → env.streamResult = .error () →
      smartDownload env = .ok .browser) ∧
    (smartDownload env = .ok .fsApi ↔
      env.fsSupported = true ∧ env.loadResult = .ok (some ()) ∧
      verifyHandlePermission env.queryPerm env.requestPerm = true ∧
      env.streamResult = .ok ()) := by
  rcases env with ⟨fs, load, q, r, sres⟩
  refine ⟨?_, ?_, ?_, ?_, ?_⟩
  · intro h
    simp only at h
    simp [smartDownload, h]
  · intro h
    simp only at h
    cases fs <;> simp [smartDownload, h]
  · intro h hv
    simp only at h hv
    cases fs <;> simp [smartDownload, h, hv]
  · intro o h hs
    simp only at h hs
    cases fs with
    | false => simp [smartDownload]
    | true =>
      cases o with
      | none => simp [smartDownload, h]
      | some u =>
        cases u
        cases hv : verifyHandlePermission q r <;>
          simp [smartDownload, h, hs, hv]
  · simp only
    cases fs with
    | false => simp [smartDownload]
    | true =>
      rcases load with u | ho
      · cases u
        simp [smartDownload]
      · rcases ho with _ | u2
        · simp [smartDownload]
        · cases u2
          cases hv : verifyHandlePermission q r with
          | false => simp [smartDownload, hv]
          | true =>
            rcases sres with u3 | u3 <;> cases u3 <;> simp [smartDownload, hv]

/-- C7 (witness): permission denied falls back to the browser download,
and so does an unsupported runtime. -/
theorem C7_witness :
    smartDownload ⟨true, .ok (some ()), .denied, .denied, .ok ()⟩ = .ok .browser ∧
    smartDownload ⟨false, .ok none, .granted, .granted, .ok ()⟩ = .ok .browser :=
  ⟨(C7_delivery_fallback ⟨true, .ok (some ()), .denied, .denied, .ok ()⟩).2.2.1 rfl rfl,
   (C7_delivery_fallback ⟨false, .ok none, .granted, .granted, .ok ()⟩).1 rfl⟩

/-- C10: when a channel URL discovery returns exactly one video with no
more pages, the page collapses into the single-video flow: it stores the
single-video info fetched for that one video URL, shows no batch selection
list, and ends in exactly the state the single-video branch produces for
that URL. -/
theorem C10_single_collapse (parsed : Option String) (batch : BatchInfoResp)
    (info : String → String) (url : String) (v : Video)
    (hc : isChannelUrl parsed = true) (hv : batch.videos = [v])
    (hm : batch.has_more = false) :
    handleGetInfo (isChannelUrl parsed) batch info url =
      { resetState with videoInfo := some (info v.url) } ∧
    (handleGetInfo (isChannelUrl parsed) batch info url).shorts = [] ∧
    handleGetInfo (isChannelUrl parsed) batch info url =
      handleGetInfo false batch info v.url := by
  rw [hc]
  rcases batch with ⟨vs, hmv⟩
  simp only at hv hm
  subst hv hm
  refine ⟨?_, ?_, ?_⟩ <;> simp [handleGetInfo, resetState]

/-- C10 (witness): a one-short channel with no further pages ends in the
single-video state for that one short. -/
theorem C10_witness :
    handleGetInfo (isChannelUrl (some "/@chan")) ⟨[⟨"id1", "vu", "t"⟩], false⟩
        (fun s => s) "x" = { resetState with videoInfo := some "vu" } ∧
    (handleGetInfo (isChannelUrl (some "/@chan")) ⟨[⟨"id1", "vu", "t"⟩], false⟩
        (fun s => s) "x").shorts = [] :=
  ⟨(C10_single_collapse (some "/@chan") ⟨[⟨"id1", "vu", "t"⟩], false⟩
      (fun s => s) "x" ⟨"id1", "vu", "t"⟩ (by decide) rfl rfl).1,
   (C10_single_collapse (some "/@chan") ⟨[⟨"id1", "vu", "t"⟩], false⟩
      (fun s => s) "x" ⟨"id1", "vu", "t"⟩ (by decide) rfl rfl).2.1⟩

/-! ### Deduplicated delivery (C4) -/

theorem deliverLoop_mem_seen (dls : List DLItem) : ∀ (seen : List String) (a : String),
    a ∈ seen → a ∈ (deliverLoop seen dls).1 := by
  induction dls with
  | nil => intro seen a h; simpa [deliverLoop] using h
  | cons dl rest ih =>
    intro seen a h
    cases hid : dl.download_id with
    | none => simpa [deliverLoop, hid] using ih seen a h
    | some id =>
      simp only [deliverLoop, hid]
      by_cases hc : id ≠ "" ∧ id ∉ seen
      · rw [if_pos hc]
        exact ih (id :: seen) a (List.mem_cons_of_mem _ h)
      · rw [if_neg hc]
        exact ih seen a h

theorem deliverLoop_out_mem_seen (dls : List DLItem) :
    ∀ (seen : List String) (id t : String),
    (id, t) ∈ (deliverLoop seen dls).2 → id ∈ (deliverLoop seen dls).1 := by
  induction dls with
  | nil => intro seen id t h; simp [deliverLoop] at h
  | cons dl rest ih =>
    intro seen id t h
    cases hid : dl.download_id with
    | none =>
      simp only [deliverLoop, hid] at h ⊢
      exact ih seen id t h
    | some i =>
      simp only [deliverLoop, hid] at h ⊢
      by_cases hc : i ≠ "" ∧ i ∉ seen
      · rw [if_pos hc] at h ⊢
        simp only at h ⊢
        rcases List.mem_cons.mp h with heq | hmem
        · injection heq with h1 h2
          subst h1
          exact deliverLoop_mem_seen rest (id :: seen) id (List.mem_cons_self _ _)
        · exact ih (i :: seen) id t hmem
      · rw [if_neg hc] at h ⊢
        exact ih seen id t h

theorem deliverLoop_count_zero (dls : List DLItem) : ∀ (seen : List String) (id : String),
    id ∈ seen → List.count id ((deliverLoop seen dls).2.map Prod.fst) = 0 := by
  induction dls with
  | nil => intro seen id h; simp [deliverLoop]
  | cons dl rest ih =>
    intro seen id h
    cases hid : dl.download_id with
    | none =>
      simp only [deliverLoop, hid]
      exact ih seen id h
    | some i =>
      simp only [deliverLoop, hid]
      by_cases hc : i ≠ "" ∧ i ∉ seen
      · rw [if_pos hc]
        have hne : i ≠ id := fun he => hc.2 (he ▸ h)
        simp only [List.map_cons, List.count_cons]
        rw [ih (i :: seen) id (List.mem_cons_of_mem _ h)]
        simp [hne]
      · rw [if_neg hc]
        exact ih seen id h

theorem deliverLoop_count_le (dls : List DLItem) : ∀ (seen : List String) (id : String),
    List.count id ((deliverLoop seen dls).2.map Prod.fst) ≤ 1 := by
  induction dls with
  | nil => intro seen id; simp [deliverLoop]
  | cons dl rest ih =>
    intro seen id
    cases hid : dl.download_id with
    | none =>
      simp only [deliverLoop, hid]
      exact ih seen id
    | some i =>
      simp only [deliverLoop, hid]
      by_cases hc : i ≠ "" ∧ i ∉ seen
      · rw [if_pos hc]
        simp only [List.map_cons, List.count_cons]
        by_cases he : i = id
        · subst he
          rw [deliverLoop_count_zero rest (i :: seen) i (List.mem_cons_self _ _)]
          simp
        · simp only [he, if_false, beq_iff_eq, Nat.add_zero]
          exact ih (i :: seen) id
      · rw [if_neg hc]
        exact ih seen id

theorem deliveredIdsOf_shape (d : BatchData) (l : List (String × String)) :
    deliveredIdsOf (Callback.setProgress d :: l.map (fun p => Callback.deliver p.1 p.2)) =
      l.map Prod.fst := by
  induction l with
  | nil => rfl
  | cons p r ih =>
    simpa [deliveredIdsOf, List.filterMap_cons] using ih

theorem onMsg_seen_mono (st : ChanState) (m : RawMsg) (a : String) (h : a ∈ st.seen) :
    a ∈ (onBatchMessage st m).1.seen := by
  unfold onBatchMessage
  split
  · exact h
  · cases m with
    | invalid => exact h
    | valid data =>
      simp only
      exact deliverLoop_mem_seen _ _ _ h

theorem onMsg_count_le (st : ChanState) (m : RawMsg) (id : String) :
    List.count id (deliveredIdsOf (onBatchMessage st m).2) ≤ 1 := by
  unfold onBatchMessage
  split
  · simp [deliveredIdsOf]
  · cases m with
    | invalid => simp [deliveredIdsOf]
    | valid data =>
      simp only
      rw [deliveredIdsOf_shape]
      exact deliverLoop_count_le _ _ _

theorem onMsg_count_zero (st : ChanState) (m : RawMsg) (id : String)
    (h : id ∈ st.seen) :
    List.count id (deliveredIdsOf (onBatchMessage st m).2) = 0 := by
  unfold onBatchMessage
  split
  · simp [deliveredIdsOf]
  · cases m with
    | invalid => simp [deliveredIdsOf]
    | valid data =>
      simp only
      rw [deliveredIdsOf_shape]
      exact deliverLoop_count_zero _ _ _ h

theorem onMsg_delivered_mem (st : ChanState) (m : RawMsg) (id : String)
    (h : 0 < List.count id (deliveredIdsOf (onBatchMessage st m).2)) :
    id ∈ (onBatchMessage st m).1.seen := by
  revert h
  unfold onBatchMessage
  split
  · intro h; simp [deliveredIdsOf] at h
  · cases m with
    | invalid => intro h; simp [deliveredIdsOf] at h
    | valid data =>
      simp only
      rw [deliveredIdsOf_shape]
      intro h
      have hmem := List.count_pos_iff.mp h
      obtain ⟨⟨i, t⟩, hpt, hfst⟩ := List.mem_map.mp hmem
      subst hfst
      exact deliverLoop_out_mem_seen _ _ _ _ hpt

theorem processMsgs_count (msgs : List RawMsg) : ∀ (st : ChanState) (id : String),
    List.count id (deliveredIdsOf (processMsgs st msgs).2) ≤ 1 ∧
    (id ∈ st.seen → List.count id (deliveredIdsOf (processMsgs st msgs).2) = 0) := by
  induction msgs with
  | nil => intro st id; simp [processMsgs, deliveredIdsOf]
  | cons m rest ih =>
    intro st id
    have hsplit : deliveredIdsOf (processMsgs st (m :: rest)).2 =
        deliveredIdsOf (onBatchMessage st m).2 ++
          deliveredIdsOf (processMsgs (onBatchMessage st m).1 rest).2 := by
      simp [processMsgs, deliveredIdsOf, List.filterMap_append]
    rw [hsplit, List.count_append]
    have h1le := onMsg_count_le st m id
    have ihle := (ih (onBatchMessage st m).1 id).1
    constructor
    · rcases Nat.lt_or_ge 0 (List.count id (deliveredIdsOf (onBatchMessage st m).2)) with hpos | hz
      · have hmem := onMsg_delivered_mem st m id hpos
        have := (ih (onBatchMessage st m).1 id).2 hmem
        omega
      · omega
    · intro h
      have hz := onMsg_count_zero st m id h
      have hmem := onMsg_seen_mono st m id h
      have := (ih (onBatchMessage st m).1 id).2 hmem
      omega

/-- C4: over any sequence of batch progress events in one job (the
seen-set starts empty at `connectToBatchProgress`), a given `download_id`
triggers `smartDownload` at most once — once it is in the per-job seen-set
no later event repeating it causes another delivery. -/
theorem C4_at_most_one_delivery (msgs : List RawMsg) (id : String) :
    List.count id (deliveredIdsOf (processMsgs initChanState msgs).2) ≤ 1 :=
  (processMsgs_count msgs initChanState id).1

/-! ### Selection toggling (C5) -/

/-- C5 (counterexample): with no loaded items at all, toggling an unknown
id is not a no-op: it inserts the id and makes the selected count exceed
the number of loaded items. -/
theorem C5_counterexample :
    (toggleSelect ⟨none, [], ∅, false, none⟩ "x").selectedIds ≠ (∅ : Finset String) ∧
    selectedCount (toggleSelect ⟨none, [], ∅, false, none⟩ "x") = 1 ∧
    (⟨none, [], ∅, false, none⟩ : PageState).shorts.length = 0 := by
  decide

/-- C5 (amended): `toggleSelect` flips the membership of its argument
unconditionally — also for ids of no loaded item, which get inserted
rather than ignored — and leaves every other id alone; when it is applied
only to loaded ids (as every call site does) it preserves
`selectedIds ⊆ shortsIds`, and any state satisfying that inclusion has
`selectedCount ≤ items.length`. -/
theorem C5_amended_toggle (st : PageState) (id : String) :
    (id ∈ (toggleSelect st id).selectedIds ↔ id ∉ st.selectedIds) ∧
    (∀ j, j ≠ id → (j ∈ (toggleSelect st id).selectedIds ↔ j ∈ st.selectedIds)) ∧
    (st.selectedIds ⊆ shortsIds st → id ∈ shortsIds st →
      (toggleSelect st id).selectedIds ⊆ shortsIds st) ∧
    (st.selectedIds ⊆ shortsIds st → selectedCount st ≤ st.shorts.length) := by
  refine ⟨?_, ?_, ?_, ?_⟩
  · by_cases h : id ∈ st.selectedIds <;> simp [toggleSelect, h]
  · intro j hj
    by_cases h : id ∈ st.selectedIds <;> simp [toggleSelect, h, hj]
  · intro hsub hid
    by_cases h : id ∈ st.selectedIds
    · have he : (toggleSelect st id).selectedIds = st.selectedIds.erase id := by
        simp [toggleSelect, h]
      rw [he]
      exact (Finset.erase_subset _ _).trans hsub
    · have he : (toggleSelect st id).selectedIds = insert id st.selectedIds := by
        simp [toggleSelect, h]
      rw [he]
      exact Finset.insert_subset hid hsub
  · intro hsub
    calc selectedCount st ≤ (shortsIds st).card := Finset.card_le_card hsub
      _ ≤ (st.shorts.map (·.video_id)).length := List.toFinset_card_le _
      _ = st.shorts.length := by simp

/-- C5 (witness for the amended theorem): toggling a loaded id keeps the
selection inside the loaded ids and the count bounded. -/
theorem C5_amended_witness :
    ("a" ∈ (toggleSelect ⟨none, [⟨"a", "u", "t"⟩], {"a"}, false, none⟩ "a").selectedIds ↔
      "a" ∉ (⟨none, [⟨"a", "u", "t"⟩], {"a"}, false, none⟩ : PageState).selectedIds) ∧
    (toggleSelect ⟨none, [⟨"a", "u", "t"⟩], {"a"}, false, none⟩ "a").selectedIds ⊆
      shortsIds ⟨none, [⟨"a", "u", "t"⟩], {"a"}, false, none⟩ ∧
    selectedCount ⟨none, [⟨"a", "u", "t"⟩], {"a"}, false, none⟩ ≤
      (⟨none, [⟨"a", "u", "t"⟩], {"a"}, false, none⟩ : PageState).shorts.length :=
  ⟨(C5_amended_toggle ⟨none, [⟨"a", "u", "t"⟩], {"a"}, false, none⟩ "a").1,
   (C5_amended_toggle ⟨none, [⟨"a", "u", "t"⟩], {"a"}, false, none⟩ "a").2.2.1
     (by decide) (by decide),
   (C5_amended_toggle ⟨none, [⟨"a", "u", "t"⟩], {"a"}, false, none⟩ "a").2.2.2
     (by decide)⟩

/-! ### Pagination and default selection (C8) -/

theorem foldl_insert_eq_union (l : List Video) : ∀ s : Finset String,
    l.foldl (fun acc v => insert v.video_id acc) s =
      s ∪ (l.map (·.video_id)).toFinset := by
  induction l with
  | nil => intro s; simp
  | cons v r ih =>
    intro s
    rw [List.foldl_cons, ih (insert v.video_id s), List.map_cons, List.toFinset_cons,
      Finset.insert_union, Finset.union_insert]

/-- C8 (counterexample): an id the user had deselected is selected again
when a later page repeats it — `handleLoadMore` re-inserts every id of the
new page, so prior deselections are not always left untouched. -/
theorem C8_counterexample :
    "a" ∉ (⟨none, [⟨"a", "u1", "t1"⟩], ∅, true, none⟩ : PageState).selectedIds ∧
    "a" ∈ (handleLoadMore ⟨none, [⟨"a", "u1", "t1"⟩], ∅, true, none⟩
        ⟨[⟨"a", "u2", "t2"⟩], false⟩).selectedIds := by
  decide

/-- C8 (amended): `handleLoadMore` appends the new page to the item list,
never removes an existing selection, selects every newly returned id (so a
previously deselected id is preserved only when the new page does not
repeat it), and the selected set becomes the union of the old set with the
new ids; when the pages carry pairwise distinct fresh ids, a 30-item page
followed by a 15-item page yields 45 items all selected. -/
theorem C8_amended_load :
    (∀ (st : PageState) (resp : BatchInfoResp),
      (handleLoadMore st resp).shorts = st.shorts ++ resp.videos ∧
      st.selectedIds ⊆ (handleLoadMore st resp).selectedIds ∧
      (∀ v ∈ resp.videos, v.video_id ∈ (handleLoadMore st resp).selectedIds) ∧
      (handleLoadMore st resp).selectedIds =
        st.selectedIds ∪ (resp.videos.map (·.video_id)).toFinset) ∧
    (∀ (p1 p2 : List Video) (info : String → String) (url : String),
      (p1.map (·.video_id)).Nodup → (p2.map (·.video_id)).Nodup →
      (∀ a ∈ (p1.map (·.video_id)).toFinset, a ∉ (p2.map (·.video_id)).toFinset) →
      p1.length = 30 → p2.length = 15 →
      (handleLoadMore (handleGetInfo true ⟨p1, true⟩ info url)
          ⟨p2, false⟩).shorts.length = 45 ∧
      selectedCount (handleLoadMore (handleGetInfo true ⟨p1, true⟩ info url)
          ⟨p2, false⟩) = 45) := by
  have hsel : ∀ (st : PageState) (resp : BatchInfoResp),
      (handleLoadMore st resp).selectedIds =
        st.selectedIds ∪ (resp.videos.map (·.video_id)).toFinset := by
    intro st resp
    simp [handleLoadMore, foldl_insert_eq_union]
  constructor
  · intro st resp
    refine ⟨rfl, ?_, ?_, hsel st resp⟩
    · rw [hsel]
      exact Finset.subset_union_left
    · intro v hv
      rw [hsel]
      exact Finset.mem_union_right _ (List.mem_toFinset.mpr (List.mem_map_of_mem _ hv))
  · intro p1 p2 info url hn1 hn2 hdisj hl1 hl2
    have hst1 : handleGetInfo true ⟨p1, true⟩ info url =
        { resetState with
            shorts := p1
            selectedIds := (p1.map (·.video_id)).toFinset
            hasMore := true } := by
      simp [handleGetInfo, hl1]
    constructor
    · simp [handleLoadMore, hst1, hl1, hl2]
    · rw [selectedCount, hsel, hst1]
      simp only
      rw [Finset.card_union_of_disjoint (Finset.disjoint_left.mpr hdisj),
        List.toFinset_card_of_nodup hn1, List.toFinset_card_of_nodup hn2]
      simp [hl1, hl2]

/-- A 30-item first page with fresh ids, for the C8 scenario. -/
def pageA : List Video := (List.range 30).map (fun n => ⟨"a" ++ toString n, "u", "t"⟩)

/-- A 15-item second page with fresh ids, for the C8 scenario. -/
def pageB : List Video := (List.range 15).map (fun n => ⟨"b" ++ toString n, "u", "t"⟩)

/-- C8 (witness for the amended theorem): the 30 + 15 scenario yields 45
loaded items and a selection of size 45. -/
theorem C8_amended_witness :
    (handleLoadMore (handleGetInfo true ⟨pageA, true⟩ (fun s => s) "x")
        ⟨pageB, false⟩).shorts.length = 45 ∧
    selectedCount (handleLoadMore (handleGetInfo true ⟨pageA, true⟩ (fun s => s) "x")
        ⟨pageB, false⟩) = 45 :=
  C8_amended_load.2 pageA pageB (fun s => s) "x"
    (by decide) (by decide) (by decide) (by decide) (by decide)

/-! ### Filename derivation (C6) -/

/-- C6: the filename priority order of `parseFilenameFromResponse`: a
UTF-8-tagged header filename wins and is percent-decoded; otherwise a
plain header filename wins trimmed; otherwise a nonempty sanitized
suggested title gets the content-type extension appended unless it already
ends with it; otherwise the artifact id plus the content-type extension;
the extension table defaults to `.mp4`; and the derivation is a pure
function of the `{filenameHint, suggestedTitle, contentType}` triple. -/
theorem C6_filename_priority :
    (∀ (resp : HttpResponse) (sName : Option String) (dId : String) (d : String)
        (g : List Char) (dec : String),
        resp.contentDisposition = some d → d ≠ "" →
        scanUtf8Filename d.data = some g →
        jsDecodeURIComponent (String.mk g) = some dec →
        parseFilenameFromResponse resp sName dId = .ok dec) ∧
    (∀ (resp : HttpResponse) (sName : Option String) (dId : String) (d : String)
        (g : List Char),
        resp.contentDisposition = some d → d ≠ "" →
        scanUtf8Filename d.data = none →
        scanPlainFilename d.data = some g →
        parseFilenameFromResponse resp sName dId = .ok (jsTrim (String.mk g))) ∧
    (∀ (resp : HttpResponse) (s : String) (dId : String),
        dispositionFilename resp = none → s ≠ "" → safeName s ≠ "" →
        parseFilenameFromResponse resp (some s) dId =
          .ok (if jsEndsWith (safeName s) (extFor (ctOf resp)) then safeName s
               else safeName s ++ extFor (ctOf resp))) ∧
    (∀ (resp : HttpResponse) (sName : Option String) (dId : String),
        dispositionFilename resp = none →
        (sName = none ∨ sName = some "" ∨ ∃ s, sName = some s ∧ safeName s = "") →
        parseFilenameFromResponse resp sName dId = .ok (dId ++ extFor (ctOf resp))) ∧
    (∀ ct : String, ct ≠ "video/mp4" → ct ≠ "video/webm" → ct ≠ "video/x-matroska" →
        ct ≠ "audio/mpeg" → ct ≠ "audio/mp4" → ct ≠ "application/zip" →
        ct ≠ "image/jpeg" → ct ≠ "image/png" → ct ≠ "image/webp" →
        extFor ct = ".mp4") ∧
    (∀ (r1 r2 : HttpResponse) (s1 s2 : Option String) (d1 d2 : String),
        r1 = r2 → s1 = s2 → d1 = d2 →
        parseFilenameFromResponse r1 s1 d1 = parseFilenameFromResponse r2 s2 d2) := by
  refine ⟨?_, ?_, ?_, ?_, ?_, ?_⟩
  · intro resp sName dId d g dec h1 h2 h3 h4
    simp [parseFilenameFromResponse, dispositionFilename, h1, h2, h3, h4]
  · intro resp sName dId d g h1 h2 h3 h4
    simp [parseFilenameFromResponse, dispositionFilename, h1, h2, h3, h4]
  · intro resp s dId h1 h2 h3
    rw [parseFilenameFromResponse, h1]
    simp only [afterDisposition, h2, if_neg]
    by_cases he : jsEndsWith (safeName s) (extFor (ctOf resp)) <;> simp [h2, h3, he]
  · intro resp sName dId h1 h2
    rw [parseFilenameFromResponse, h1]
    rcases h2 with h2 | h2 | ⟨s, hs, hsafe⟩
    · subst h2; rfl
    · subst h2; simp [afterDisposition]
    · subst hs
      by_cases hs0 : s = ""
      · simp [afterDisposition, hs0]
      · simp [afterDisposition, hs0, hsafe]
  · intro ct h1 h2 h3 h4 h5 h6 h7 h8 h9
    simp [extFor, h1, h2, h3, h4, h5, h6, h7, h8, h9]
  · intro r1 r2 s1 s2 d1 d2 h1 h2 h3
    subst h1; subst h2; subst h3; rfl

/-- The Content-Disposition header of the C6 witness, carrying a
UTF-8-tagged percent-encoded filename. -/
def dispA : String :=
  "attachment; filename*=UTF-8" ++ String.mk [quoteChar, quoteChar] ++ "hello%20world.mp4"

/-- C6 (witness): one concrete response per branch of the priority order. -/
theorem C6_witness :
    parseFilenameFromResponse ⟨some dispA, some "video/mp4"⟩ none "id1" =
      .ok "hello world.mp4" ∧
    parseFilenameFromResponse ⟨none, some "video/webm"⟩ (some "My: Video?") "id1" =
      .ok "My Video.webm" ∧
    parseFilenameFromResponse ⟨none, some "audio/mpeg"⟩ none "id9" = .ok "id9.mp3" := by
  refine ⟨?_, ?_, ?_⟩
  · exact C6_filename_priority.1 ⟨some dispA, some "video/mp4"⟩ none "id1" dispA
      "hello%20world.mp4".data "hello world.mp4" rfl (by decide) (by decide) (by decide)
  · have h := C6_filename_priority.2.2.1 ⟨none, some "video/webm"⟩ "My: Video?" "id1"
      rfl (by decide) (by decide)
    exact h.trans (congrArg Except.ok (by decide))
  · exact C6_filename_priority.2.2.2.1 ⟨none, some "audio/mpeg"⟩ none "id9" rfl
      (Or.inl rfl)

end TurboClip
